import Mathlib

/-!
# NoteMate glossary pipeline — verification of the spec against `src/app/main.py` / `src/app/db.py`

Shallow embedding of the glossary generation and caching pipeline:

* a JSON value model (`JValue`) together with executable models of Python's
  `json.loads` (`jsonLoads`, fuel-indexed recursive-descent parser) and
  `json.dumps(..., ensure_ascii=False)` (`dumpVal`, default `", "` / `": "`
  separators).  Model restrictions, noted where relevant: JSON numbers are
  modelled as integers (float literals make the modelled parse fail instead of
  producing a float), `\uXXXX` escapes are not modelled, and strings accept raw
  control characters that strict `json.loads` would reject; none of the claims
  exercise these corners.
* the response-recovery algorithm of `_generate_glossary` (main.py lines
  99-134): candidate selection (strip / fenced block), direct parse, bracket
  scan, degraded fallback.  The two `re.search` patterns are modelled directly
  by `fenceGroup` (for ```` ```(?:json)?\s*(.*?)``` ```` with DOTALL+IGNORECASE)
  and `bracketMatch` (for `\[[\s\S]*\]`).
* the cache table functions `get_glossary_cache` / `upsert_glossary_cache`
  (db.py lines 191-229) over an association-list database state.
* the `/lectures/<id>/glossary` route body from the page-parameter parsing
  onward (main.py lines 268-296), with the PDF page texts and the generation
  service reply supplied as oracles.
-/

namespace NoteMate

/-! ## Character classes

`isJsonWS` is the whitespace set skipped by Python's `json` scanner
(`' \t\n\r'`).  `isPyWS` is the ASCII part of the whitespace set used by
`str.strip()` and by `\s` in the `re` patterns (space, TAB, LF, CR, VT, FF);
non-ASCII unicode whitespace is outside the model. -/

def isJsonWS (c : Char) : Bool :=
  c = ' ' || c = '\t' || c = '\n' || c = '\r'

def isPyWS (c : Char) : Bool :=
  c = ' ' || c = '\t' || c = '\n' || c = '\r' || c = Char.ofNat 11 || c = Char.ofNat 12

/-- `str.strip()` on a character list (ASCII whitespace). -/
def pyStripL (cs : List Char) : List Char :=
  ((cs.dropWhile isPyWS).reverse.dropWhile isPyWS).reverse

/-- `str.strip()` at `String` type. -/
def pyStrip (s : String) : String :=
  String.mk (pyStripL s.data)

/-- `str.lower()` (ASCII; unicode case mapping outside the model). -/
def pyLower (s : String) : String :=
  String.mk (s.data.map Char.toLower)

/-! ## Decimal digits -/

def digitChar (d : Nat) : Char := Char.ofNat (48 + d)

/-- Fuel-indexed decimal rendering of a natural number (most significant digit
first); `natDigs` supplies sufficient fuel. -/
def natDigsF : Nat → Nat → List Char
  | 0, _ => []
  | f + 1, n => if n < 10 then [digitChar n] else natDigsF f (n / 10) ++ [digitChar (n % 10)]

def natDigs (n : Nat) : List Char := natDigsF (n + 1) n

/-- Decimal rendering of an integer, as `str(int)` / `json.dumps` produce it. -/
def intDigs (n : Int) : List Char :=
  if n < 0 then '-' :: natDigs n.natAbs else natDigs n.natAbs

/-- `str(n)` for an integer. -/
def intStr (n : Int) : String := String.mk (intDigs n)

/-- Numeric value of a digit list (the fold `json` / `int()` perform). -/
def digsVal (ds : List Char) : Nat :=
  ds.foldl (fun a c => 10 * a + (c.toNat - 48)) 0

/-! ## JSON value model -/

inductive JValue where
  | jnull : JValue
  | jbool : Bool → JValue
  | jnum : Int → JValue
  | jstr : List Char → JValue
  | jarr : List JValue → JValue
  | jobj : List (List Char × JValue) → JValue

/-! ### `json.dumps(v, ensure_ascii=False)` -/

/-- Escaping of a single character inside a JSON string literal (`"` and `\`;
control-character escapes are outside the model, see the header comment). -/
def escChar (c : Char) : List Char :=
  if c = '"' then ['\\', '"']
  else if c = '\\' then ['\\', '\\']
  else [c]

def escStr (s : List Char) : List Char :=
  s.foldr (fun c acc => escChar c ++ acc) []

mutual

def dumpVal : JValue → List Char
  | JValue.jnull => 'n' :: 'u' :: 'l' :: 'l' :: []
  | JValue.jbool true => 't' :: 'r' :: 'u' :: 'e' :: []
  | JValue.jbool false => 'f' :: 'a' :: 'l' :: 's' :: 'e' :: []
  | JValue.jnum n => intDigs n
  | JValue.jstr s => '"' :: (escStr s ++ ['"'])
  | JValue.jarr es => '[' :: (dumpElems true es ++ [']'])
  | JValue.jobj fs => '{' :: (dumpFields true fs ++ ['}'])

/-- Elements joined by `", "` (the `json.dumps` default separator). -/
def dumpElems : Bool → List JValue → List Char
  | _, [] => []
  | first, v :: vs => (if first then [] else [',', ' ']) ++ (dumpVal v ++ dumpElems false vs)

/-- Key/value pairs joined by `", "`, with `": "` between key and value. -/
def dumpFields : Bool → List (List Char × JValue) → List Char
  | _, [] => []
  | first, (k, v) :: fs =>
      (if first then [] else [',', ' ']) ++
        ('"' :: (escStr k ++ ['"', ':', ' '])) ++ (dumpVal v ++ dumpFields false fs)

end

/-- `json.dumps(v, ensure_ascii=False)` at `String` type. -/
def jsonDumps (v : JValue) : String := String.mk (dumpVal v)

/-! ### `json.loads` -/

/-- Unescaping of `\c` inside a JSON string (the `\uXXXX` form is outside the
model). -/
def unescCh (c : Char) : Option Char :=
  if c = '"' then some '"'
  else if c = '\\' then some '\\'
  else if c = '/' then some '/'
  else if c = 'n' then some '\n'
  else if c = 't' then some '\t'
  else if c = 'r' then some '\r'
  else if c = 'b' then some (Char.ofNat 8)
  else if c = 'f' then some (Char.ofNat 12)
  else none

/-- Parse the remainder of a JSON string literal (after the opening quote),
returning the decoded contents and the input after the closing quote. -/
def parseStr : List Char → Option (List Char × List Char)
  | [] => none
  | c :: rest =>
    if c = '"' then some ([], rest)
    else if c = '\\' then
      match rest with
      | [] => none
      | e :: rest2 =>
        match unescCh e with
        | none => none
        | some ch => (parseStr rest2).map (fun p => (ch :: p.1, p.2))
    else (parseStr rest).map (fun p => (c :: p.1, p.2))

/-- Maximal-munch parse of an unsigned JSON integer literal.  A leading `0`
ends the literal immediately (JSON forbids leading zeros); a following `.`,
`e` or `E` would start a float literal, which the model rejects. -/
def parsePosNum : List Char → Option (Nat × List Char)
  | [] => none
  | c :: rest =>
    if c = '0' then
      match rest with
      | [] => some (0, [])
      | r :: _ => if r = '.' || r = 'e' || r = 'E' then none else some (0, rest)
    else if c.isDigit then
      let ds := rest.takeWhile (fun d => d.isDigit)
      let r := rest.dropWhile (fun d => d.isDigit)
      match r with
      | [] => some (digsVal (c :: ds), [])
      | x :: _ => if x = '.' || x = 'e' || x = 'E' then none else some (digsVal (c :: ds), r)
    else none

def parseNum : List Char → Option (Int × List Char)
  | [] => none
  | c :: rest =>
    if c = '-' then (parsePosNum rest).map (fun p => (-(p.1 : Int), p.2))
    else (parsePosNum (c :: rest)).map (fun p => ((p.1 : Int), p.2))

mutual

/-- Fuel-indexed recursive-descent parser for a JSON value, mirroring the
grammar `json.loads` accepts (modulo the model restrictions above).  Returns
the value and the unconsumed input. -/
def parseVal : Nat → List Char → Option (JValue × List Char)
  | 0, _ => none
  | f + 1, cs =>
    match cs.dropWhile isJsonWS with
    | [] => none
    | c :: rest =>
      if c = 'n' then
        match rest with
        | 'u' :: 'l' :: 'l' :: r => some (JValue.jnull, r)
        | _ => none
      else if c = 't' then
        match rest with
        | 'r' :: 'u' :: 'e' :: r => some (JValue.jbool true, r)
        | _ => none
      else if c = 'f' then
        match rest with
        | 'a' :: 'l' :: 's' :: 'e' :: r => some (JValue.jbool false, r)
        | _ => none
      else if c = '"' then (parseStr rest).map (fun p => (JValue.jstr p.1, p.2))
      else if c = '[' then
        match rest.dropWhile isJsonWS with
        | ']' :: r2 => some (JValue.jarr [], r2)
        | cs2 => (parseElems f cs2).map (fun p => (JValue.jarr p.1, p.2))
      else if c = '{' then
        match rest.dropWhile isJsonWS with
        | '}' :: r2 => some (JValue.jobj [], r2)
        | cs2 => (parseFields f cs2).map (fun p => (JValue.jobj p.1, p.2))
      else (parseNum (c :: rest)).map (fun p => (JValue.jnum p.1, p.2))

/-- One-or-more comma-separated array elements up to the closing `]`. -/
def parseElems : Nat → List Char → Option (List JValue × List Char)
  | 0, _ => none
  | f + 1, cs =>
    match parseVal f cs with
    | none => none
    | some (v, rest) =>
      match rest.dropWhile isJsonWS with
      | ',' :: r2 => (parseElems f r2).map (fun p => (v :: p.1, p.2))
      | ']' :: r2 => some ([v], r2)
      | _ => none

/-- One-or-more comma-separated object members up to the closing `}`. -/
def parseFields : Nat → List Char → Option (List (List Char × JValue) × List Char)
  | 0, _ => none
  | f + 1, cs =>
    match cs.dropWhile isJsonWS with
    | '"' :: rest =>
      match parseStr rest with
      | none => none
      | some (k, rest2) =>
        match rest2.dropWhile isJsonWS with
        | ':' :: rest3 =>
          match parseVal f rest3 with
          | none => none
          | some (v, rest4) =>
            match rest4.dropWhile isJsonWS with
            | ',' :: r2 => (parseFields f r2).map (fun p => ((k, v) :: p.1, p.2))
            | '}' :: r2 => some ([(k, v)], r2)
            | _ => none
        | _ => none
    | _ => none

end

/-- `json.loads` on a character list: parse one value with sufficient fuel and
require only whitespace after it (otherwise Python raises `JSONDecodeError`,
modelled as `none`). -/
def jsonLoads (cs : List Char) : Option JValue :=
  match parseVal (cs.length + 1) cs with
  | some (v, rest) => if rest.dropWhile isJsonWS = [] then some v else none
  | none => none

/-! ## The two `re.search` patterns of `_generate_glossary`

`fenceGroup` models ```` re.search(r"```(?:json)?\s*(.*?)```", text, DOTALL|IGNORECASE) ````
returning group 1 of the leftmost match, and `bracketMatch` models
`re.search(r"\[[\s\S]*\]", candidate)` returning group 0. -/

/-- The backtick character. -/
def tick : Char := Char.ofNat 96

/-- Do the next two characters continue a ``` marker? -/
def ticks2 : List Char → Bool
  | b :: c :: _ => b = tick && c = tick
  | _ => false

/-- Split at the first occurrence of three consecutive backticks: returns the
text before it and the text after it, or `none` when no fence marker occurs. -/
def splitTicks : List Char → Option (List Char × List Char)
  | [] => none
  | a :: rest =>
    if a = tick ∧ ticks2 rest then some ([], rest.drop 2)
    else (splitTicks rest).map (fun p => (a :: p.1, p.2))

/-- Does the text start with `json`, case-insensitively (`(?:json)?` under
`re.IGNORECASE`)? -/
def jsonCI : List Char → Bool
  | a :: b :: c :: d :: _ =>
      a.toLower = 'j' && b.toLower = 's' && c.toLower = 'o' && d.toLower = 'n'
  | _ => false

/-- After an opening fence: skip `\s*` greedily, then take everything up to
the next ``` (the lazy `(.*?)` followed by the closing fence). -/
def closeGroup (body : List Char) : Option (List Char) :=
  (splitTicks (body.dropWhile isPyWS)).map Prod.fst

/-- Group 1 of the leftmost match of ```` ```(?:json)?\s*(.*?)``` ````.
The regex engine prefers consuming `json` when present and falls back to the
empty alternative on failure (which, the fenced region containing no backtick,
can then only fail as well); a later fence start can succeed only if the first
one finds a closing marker, so only the first opening fence needs to be tried. -/
def fenceGroup (cs : List Char) : Option (List Char) :=
  match splitTicks cs with
  | none => none
  | some (_, after) =>
    match (if jsonCI after then closeGroup (after.drop 4) else none) with
    | some g => some g
    | none => closeGroup after

/-- Group 0 of the leftmost match of `\[[\s\S]*\]`: from the first `[` that
has some `]` after it (necessarily the first `[` overall, or nothing) through
the last `]`. -/
def bracketMatch (cs : List Char) : Option (List Char) :=
  let l := cs.dropWhile (fun c => c ≠ '[')
  if l.contains ']' then some ((l.reverse.dropWhile (fun c => c ≠ ']')).reverse)
  else none

/-! ## The response-recovery algorithm (main.py lines 99-134) -/

/-- The synthetic single-item fallback list returned when no tier recovers an
array (main.py lines 128-134); `context` is `text.strip()[:500]`. -/
def degradedItems (text : List Char) : List JValue :=
  [JValue.jobj [
    (("term").data, JValue.jstr ("解析失敗").data),
    (("definition").data, JValue.jstr ("Gemini API の応答をJSONとして解釈できませんでした。").data),
    (("context").data, JValue.jstr ((pyStripL text).take 500))]]

/-- Candidate selection (main.py lines 100-107): start from the stripped raw
text, replace it by the stripped fenced-block contents when a fence matches,
and fall back to the stripped raw text when that leaves an empty candidate. -/
def candidateOf (text : List Char) : List Char :=
  let c0 := pyStripL text
  let c1 := match fenceGroup text with
    | some g => pyStripL g
    | none => c0
  if c1 = [] then pyStripL text else c1

/-- The parsing part of `_generate_glossary` (main.py lines 100-134): direct
parse of the candidate; on a decode error, bracket-scan the candidate and
retry; otherwise the degraded fallback. -/
def parseReply (text : List Char) : List JValue :=
  let candidate := candidateOf text
  match jsonLoads candidate with
  | some (JValue.jarr xs) => xs
  | some _ => degradedItems text
  | none =>
    match bracketMatch candidate with
    | some sub =>
      match jsonLoads sub with
      | some (JValue.jarr xs) => xs
      | _ => degradedItems text
    | none => degradedItems text

/-! ## Prompt construction (main.py lines 85-95) -/

/-- `content[:12000]` — the silent truncation applied before the prompt is
built. -/
def truncatedOf (content : String) : String :=
  String.mk (content.data.take 12000)

/-- The instruction text preceding the embedded document text. -/
def promptHead : String :=
  "あなたは大学講義のチューターです。以下の資料本文を読み、重要な専門用語を抽出し、それぞれについて学生にも分かりやすい解説を作成してください。応答は必ず JSON 配列のみとし、各要素は \x7b\"term\": \"用語\", \"definition\": \"説明\", \"context\": \"資料での文脈\"\x7d の形式で出力してください。資料本文:\n```\n"

/-- The closing fence after the embedded document text. -/
def promptTail : String := "\n```"

/-- The full request payload built by `_generate_glossary`. -/
def promptFor (content : String) : String :=
  promptHead ++ truncatedOf content ++ promptTail

/-! ## Page-parameter parsing (main.py lines 268-276) -/

/-- Digit-string to number, rejecting anything but nonempty all-digit input. -/
def decNat (ds : List Char) : Option Nat :=
  if ds = [] then none
  else if ds.all (fun d => d.isDigit) then some (digsVal ds) else none

/-- `int(s)` on a string: surrounding ASCII whitespace and an optional sign
are accepted (underscore separators and unicode digits are outside the model). -/
def pyInt (s : String) : Option Int :=
  match pyStripL s.data with
  | '-' :: ds => (decNat ds).map (fun n => -(n : Int))
  | '+' :: ds => (decNat ds).map (fun n => (n : Int))
  | ds => (decNat ds).map (fun n => (n : Int))

/-- The page-parameter parsing of the glossary route: `none` models the
`ValueError` branch (HTTP 400); otherwise the zero-based extraction index
(absent for whole-document scope) and the cache `page_key` are returned.
Mirrors `page_index = int(page_param) - 1; page_key = str(page_index + 1)`. -/
def pageSel (pageParam : Option String) : Option (Option Int × String) :=
  match pageParam with
  | none => some (none, "all")
  | some s =>
    if s = "" ∨ pyLower s = "all" then some (none, "all")
    else
      match pyInt s with
      | some n => some (some (n - 1), intStr ((n - 1) + 1))
      | none => none

/-! ## Timestamps -/

/-- Zero-padded decimal rendering to a fixed width. -/
def padNat (w n : Nat) : List Char :=
  List.replicate (w - (natDigs n).length) '0' ++ natDigs n

/-- A `datetime.datetime` value (the fields `isoformat()` prints). -/
structure PyDatetime where
  year : Nat
  month : Nat
  day : Nat
  hour : Nat
  minute : Nat
  second : Nat
  microsecond : Nat

/-- `datetime.isoformat()`: `YYYY-MM-DDTHH:MM:SS[.ffffff]`, the microsecond
part omitted when zero. -/
def PyDatetime.isoformat (d : PyDatetime) : String :=
  String.mk (padNat 4 d.year ++ '-' :: padNat 2 d.month ++ '-' :: padNat 2 d.day ++
    'T' :: padNat 2 d.hour ++ ':' :: padNat 2 d.minute ++ ':' :: padNat 2 d.second ++
    (if d.microsecond = 0 then [] else '.' :: padNat 6 d.microsecond))

/-! ## The cache table (db.py lines 191-229)

The `lecture_glossary_cache` table state: rows keyed by
`(lecture_id, page_key)` (a UNIQUE key, so an association list) holding the
`items_json` text and the `updated_at` text. -/

abbrev CacheDB := List ((String × String) × (String × String))

def dbLookup : CacheDB → String × String → Option (String × String)
  | [], _ => none
  | (k, v) :: rest, key => if k = key then some v else dbLookup rest key

/-- `INSERT ... ON CONFLICT(lecture_id, page_key) DO UPDATE`: replace the row
if the key exists, insert it otherwise. -/
def dbInsert : CacheDB → String × String → String × String → CacheDB
  | [], key, v => [(key, v)]
  | (k, w) :: rest, key, v =>
      if k = key then (key, v) :: rest else (k, w) :: dbInsert rest key v

/-- The dictionary `get_glossary_cache` returns on a hit. -/
structure CacheEntry where
  items : JValue
  updated_at : String

/-- `get_glossary_cache` (db.py lines 191-213): `None` when the row is absent;
otherwise `json.loads(items_json)`, with a decode error degrading to `[]`. -/
def get_glossary_cache (db : CacheDB) (lecture_id page_key : String) : Option CacheEntry :=
  match dbLookup db (lecture_id, page_key) with
  | none => none
  | some (itemsJson, ua) =>
      some { items := (jsonLoads itemsJson.data).getD (JValue.jarr []),
             updated_at := ua }

/-- `upsert_glossary_cache` (db.py lines 216-229): store
`json.dumps(items, ensure_ascii=False)` and `updated_at.isoformat()` under the
key, replacing any existing row. -/
def upsert_glossary_cache (db : CacheDB) (lecture_id page_key : String)
    (items : JValue) (updated_at : PyDatetime) : CacheDB :=
  dbInsert db (lecture_id, page_key) (jsonDumps items, updated_at.isoformat)

/-! ## Text extraction (main.py lines 57-70) -/

/-- Result of `_extract_pdf_text`: a text, or a raised `ValueError` /
`RuntimeError` (the route maps these to HTTP 400 / 500). -/
inductive ExtractResult where
  | ok : String → ExtractResult
  | valueErr : String → ExtractResult
  | runtimeErr : String → ExtractResult

/-- `_extract_pdf_text` given the per-page extracted texts (each already the
`extract_text() or ""` of a page), assuming `PyPDF2` is importable: a page
index out of `[0, len)` raises `ValueError`; absent index joins all pages with
newlines. -/
def extract_pdf_text (pages : List String) (page : Option Int) : ExtractResult :=
  match page with
  | some p =>
      if p < 0 ∨ (pages.length : Int) ≤ p then ExtractResult.valueErr ("ページ番号が不正です。")
      else ExtractResult.ok (pages.getD p.toNat "")
  | none => ExtractResult.ok (String.intercalate "\n" pages)

/-! ## The glossary route (main.py lines 268-296) -/

/-- The JSON body + status the route answers with.  A cache hit carries
`cached: true` and the stored timestamp; a fresh generation carries
`cached: false` (and no timestamp, as in the source). -/
inductive RouteResult where
  | okCached : JValue → String → RouteResult
  | okFresh : List JValue → RouteResult
  | errResp : Nat → String → RouteResult

/-- Observable outcome of one request: the response, the cache table after the
request, and whether the generation service was invoked, the extractor was
invoked, and the cache was consulted. -/
structure RouteOutcome where
  result : RouteResult
  db : CacheDB
  genCalled : Bool
  extractCalled : Bool
  cacheChecked : Bool

/-- `request.args.get("refresh")` is falsy exactly when absent or empty
(`if not refresh:`). -/
def refreshFalsy : Option String → Bool
  | none => true
  | some s => s = ""

/-- The body of the `glossary` route from the page-parameter parsing on
(main.py lines 268-296), with the document found and its file present.  The
per-page texts `pages` and the generation service's raw reply `reply` are
oracles; `geminiOK` models `genai and GOOGLE_API_KEY` (the guard at the top of
`_generate_glossary`, raising `RuntimeError` before any service call). -/
def glossaryRoute (lecture_id : String) (pageParam refreshParam : Option String)
    (geminiOK : Bool) (pages : List String) (reply : String)
    (now : PyDatetime) (db : CacheDB) : RouteOutcome :=
  match pageSel pageParam with
  | none => ⟨RouteResult.errResp 400 ("ページ指定が不正です。"), db, false, false, false⟩
  | some (pageIndex, pageKey) =>
    let checkCache := refreshFalsy refreshParam
    match (if checkCache then get_glossary_cache db lecture_id pageKey else none) with
    | some entry =>
        ⟨RouteResult.okCached entry.items entry.updated_at, db, false, false, checkCache⟩
    | none =>
      match extract_pdf_text pages pageIndex with
      | ExtractResult.valueErr m => ⟨RouteResult.errResp 400 m, db, false, true, checkCache⟩
      | ExtractResult.runtimeErr m => ⟨RouteResult.errResp 500 m, db, false, true, checkCache⟩
      | ExtractResult.ok content =>
        if pyStrip content = "" then
          ⟨RouteResult.errResp 500 ("PDFからテキストを抽出できませんでした。"), db, false, true, checkCache⟩
        else if geminiOK = false then
          ⟨RouteResult.errResp 500 ("Gemini API が利用できません。GOOGLE_API_KEY を設定してください。"),
            db, false, true, checkCache⟩
        else
          let items := parseReply reply.data
          let db2 := upsert_glossary_cache db lecture_id pageKey (JValue.jarr items) now
          ⟨RouteResult.okFresh items, db2, true, true, checkCache⟩

/-! ## Observables used to state the parser claims -/

/-- Field lookup on a parsed object (first occurrence), `none` on non-objects
and missing keys — the accessor a consumer of the returned items would use. -/
def fieldOf (v : JValue) (k : List Char) : Option JValue :=
  match v with
  | JValue.jobj fs => (fs.find? (fun p => p.1 == k)).map Prod.snd
  | _ => none

/-- Does the text parse (via `json.loads`) as a top-level array? -/
def isArrLoad (cs : List Char) : Bool :=
  match jsonLoads cs with
  | some (JValue.jarr _) => true
  | _ => false

/-- True when neither the direct parse of the candidate nor the bracket-scan
of the candidate recovers a top-level array — the situation in which the
degraded fallback is the response. -/
def noArrayRecovered (text : List Char) : Bool :=
  !isArrLoad (candidateOf text) &&
    !(match bracketMatch (candidateOf text) with
      | some sub => isArrLoad sub
      | none => false)

/-! ## Generic helpers about `takeWhile` / `dropWhile` -/

theorem dropWhile_cons_false {p : Char → Bool} {a : Char} {l : List Char}
    (h : p a = false) : (a :: l).dropWhile p = a :: l := by
  simp [List.dropWhile_cons, h]

theorem dropWhile_append_all {p : Char → Bool} :
    ∀ {pre : List Char}, (∀ c ∈ pre, p c = true) → ∀ l : List Char,
      (pre ++ l).dropWhile p = l.dropWhile p
  | [], _, l => rfl
  | a :: pre, h, l => by
    have ha : p a = true := h a (by simp)
    simp only [List.cons_append, List.dropWhile_cons, ha, if_true]
    exact dropWhile_append_all (fun c hc => h c (by simp [hc])) l

theorem takeWhile_append_stop {p : Char → Bool} {pre l : List Char}
    (h : ∀ c ∈ pre, p c = true) (hl : ∀ c t, l = c :: t → p c = false) :
    (pre ++ l).takeWhile p = pre ∧ (pre ++ l).dropWhile p = l := by
  induction pre with
  | nil =>
    cases l with
    | nil => exact ⟨rfl, rfl⟩
    | cons c t =>
      have := hl c t rfl
      simp [List.takeWhile_cons, List.dropWhile_cons, this]
  | cons a pre ih =>
    have ha : p a = true := h a (by simp)
    have ih' := ih (fun c hc => h c (by simp [hc]))
    simp only [List.cons_append, List.takeWhile_cons, List.dropWhile_cons, ha, if_true]
    exact ⟨by rw [ih'.1], ih'.2⟩

/-! ## Decimal rendering: correctness of `natDigs` -/

theorem natDigsF_stable : ∀ (f g n : Nat), n < f → n < g → natDigsF f n = natDigsF g n
  | f + 1, g + 1, n, hf, hg => by
    simp only [natDigsF]
    by_cases h : n < 10
    · simp [h]
    · have hn : 0 < n := by omega
      have hlt : n / 10 < n := Nat.div_lt_self hn (by omega)
      rw [if_neg h, if_neg h, natDigsF_stable f (n / 10 + 1) (n / 10) (by omega) (by omega),
        natDigsF_stable (n / 10 + 1) g (n / 10) (by omega) (by omega)]

theorem natDigs_lt : natDigs = fun n => natDigsF (n + 1) n := rfl

theorem natDigs_small {n : Nat} (h : n < 10) : natDigs n = [digitChar n] := by
  simp [natDigs, natDigsF, h]

theorem natDigs_unfold {n : Nat} (h : 10 ≤ n) :
    natDigs n = natDigs (n / 10) ++ [digitChar (n % 10)] := by
  have hlt : n / 10 < n := Nat.div_lt_self (by omega) (by omega)
  show natDigsF (n + 1) n = _
  simp only [natDigsF, if_neg (by omega : ¬ n < 10)]
  rw [natDigsF_stable n (n / 10 + 1) (n / 10) (by omega) (by omega)]
  rfl

theorem digitChar_toNat {d : Nat} (h : d < 10) : (digitChar d).toNat = 48 + d := by
  interval_cases d <;> rfl

theorem digitChar_isDigit {d : Nat} (h : d < 10) : (digitChar d).isDigit = true := by
  interval_cases d <;> rfl

theorem digsVal_append_one (ds : List Char) (c : Char) :
    digsVal (ds ++ [c]) = 10 * digsVal ds + (c.toNat - 48) := by
  simp [digsVal, List.foldl_append]

theorem natDigs_spec : ∀ n : Nat,
    digsVal (natDigs n) = n ∧ (∀ c ∈ natDigs n, c.isDigit = true) ∧
      ∃ c t, natDigs n = c :: t ∧ c.isDigit = true ∧ (n ≠ 0 → c ≠ '0') := by
  intro n
  induction n using Nat.strong_induction_on with
  | _ n ih =>
    by_cases h : n < 10
    · rw [natDigs_small h]
      refine ⟨?_, ?_, digitChar n, [], rfl, digitChar_isDigit h, ?_⟩
      · simp [digsVal, digitChar_toNat h]
      · intro c hc
        simp at hc
        exact hc ▸ digitChar_isDigit h
      · intro hn hc
        have heq := congrArg Char.toNat hc
        rw [digitChar_toNat h, show ('0').toNat = 48 from rfl] at heq
        omega
    · have hlt : n / 10 < n := Nat.div_lt_self (by omega) (by omega)
      obtain ⟨hval, hdig, c, t, hct, hcdig, hc0⟩ := ih (n / 10) hlt
      rw [natDigs_unfold (by omega)]
      refine ⟨?_, ?_, c, t ++ [digitChar (n % 10)], by simp [hct], hcdig, ?_⟩
      · rw [digsVal_append_one, hval, digitChar_toNat (Nat.mod_lt _ (by omega))]
        omega
      · intro x hx
        simp at hx
        rcases hx with hx | hx
        · exact hdig x hx
        · exact hx ▸ digitChar_isDigit (Nat.mod_lt _ (by omega))
      · intro _
        exact hc0 (by omega)

/-! ## Character-class facts -/

theorem char_ne_of_digit {c x : Char} (h : c.isDigit = true) (hx : x.isDigit = false) :
    c ≠ x := fun hc => by subst hc; rw [h] at hx; exact Bool.noConfusion hx

theorem isJsonWS_false_of_digit {c : Char} (h : c.isDigit = true) : isJsonWS c = false := by
  have h1 : c ≠ ' ' := char_ne_of_digit h (by decide)
  have h2 : c ≠ '\t' := char_ne_of_digit h (by decide)
  have h3 : c ≠ '\n' := char_ne_of_digit h (by decide)
  have h4 : c ≠ '\r' := char_ne_of_digit h (by decide)
  simp [isJsonWS, h1, h2, h3, h4]

/-! ## Number parsing round trip -/

/-- The character after a rendered number must not extend the numeric literal. -/
def numSafe : List Char → Bool
  | [] => true
  | c :: _ => !(c.isDigit || c = '.' || c = 'e' || c = 'E')

theorem numSafe_head {c : Char} {t : List Char} (h : numSafe (c :: t) = true) :
    c.isDigit = false ∧ c ≠ '.' ∧ c ≠ 'e' ∧ c ≠ 'E' := by
  simp only [numSafe, Bool.not_eq_true', Bool.or_eq_false_iff, decide_eq_false_iff_not] at h
  exact ⟨h.1.1.1, h.1.1.2, h.1.2, h.2⟩

theorem parsePosNum_cons (c : Char) (rest : List Char) :
    parsePosNum (c :: rest) =
      if c = '0' then
        match rest with
        | [] => some (0, [])
        | r :: _ => if r = '.' || r = 'e' || r = 'E' then none else some (0, rest)
      else if c.isDigit then
        match rest.dropWhile (fun d => d.isDigit) with
        | [] => some (digsVal (c :: rest.takeWhile (fun d => d.isDigit)), [])
        | x :: _ =>
          if x = '.' || x = 'e' || x = 'E' then none
          else some (digsVal (c :: rest.takeWhile (fun d => d.isDigit)),
            rest.dropWhile (fun d => d.isDigit))
      else none := rfl

theorem parseNum_cons (c : Char) (rest : List Char) :
    parseNum (c :: rest) =
      if c = '-' then (parsePosNum rest).map (fun p => (-(p.1 : Int), p.2))
      else (parsePosNum (c :: rest)).map (fun p => ((p.1 : Int), p.2)) := rfl

theorem parsePosNum_natDigs (n : Nat) (rest : List Char) (hr : numSafe rest = true) :
    parsePosNum (natDigs n ++ rest) = some (n, rest) := by
  obtain ⟨hval, hdig, c, t, hct, hcdig, hc0⟩ := natDigs_spec n
  by_cases hn : n = 0
  · subst hn
    rw [natDigs_small (by omega)]
    cases rest with
    | nil => rfl
    | cons r rs =>
      obtain ⟨_, h1, h2, h3⟩ := numSafe_head hr
      rw [List.cons_append, parsePosNum_cons]
      rw [if_pos (show digitChar 0 = '0' from rfl)]
      simp [h1, h2, h3]
  · have hc0' : c ≠ '0' := hc0 hn
    have htdig : ∀ x ∈ t, x.isDigit = true := fun x hx => hdig x (by simp [hct, hx])
    have hstop : ∀ (x : Char) (xs : List Char), rest = x :: xs → x.isDigit = false := by
      intro x xs hx
      subst hx
      exact (numSafe_head hr).1
    obtain ⟨htake, hdrop⟩ := takeWhile_append_stop (p := fun d => d.isDigit) htdig hstop
    have hv : digsVal (c :: t) = n := by rw [← hct]; exact hval
    rw [hct, List.cons_append, parsePosNum_cons, if_neg hc0', if_pos hcdig, htake, hdrop]
    cases rest with
    | nil => simp [hv]
    | cons r rs =>
      obtain ⟨_, h1, h2, h3⟩ := numSafe_head hr
      simp [h1, h2, h3, hv]

theorem parseNum_intDigs (n : Int) (rest : List Char) (hr : numSafe rest = true) :
    parseNum (intDigs n ++ rest) = some (n, rest) := by
  by_cases hn : n < 0
  · rw [intDigs, if_pos hn, List.cons_append, parseNum_cons, if_pos rfl,
      parsePosNum_natDigs n.natAbs rest hr]
    simp only [Option.map_some']
    congr 2
    omega
  · rw [intDigs, if_neg hn]
    obtain ⟨_, _, c, t, hct, hcdig, _⟩ := natDigs_spec n.natAbs
    have hcm : c ≠ '-' := char_ne_of_digit hcdig (by decide)
    rw [hct, List.cons_append, parseNum_cons, if_neg hcm, ← List.cons_append, ← hct,
      parsePosNum_natDigs n.natAbs rest hr]
    simp only [Option.map_some']
    congr 2
    omega

/-! ## String-literal round trip -/

theorem parseStr_quote (rest : List Char) : parseStr ('"' :: rest) = some ([], rest) := by
  rw [parseStr.eq_def]; simp

theorem parseStr_escQ (X : List Char) :
    parseStr ('\\' :: '"' :: X) = (parseStr X).map (fun p => ('"' :: p.1, p.2)) := by
  rw [parseStr.eq_def]; simp [unescCh]

theorem parseStr_escB (X : List Char) :
    parseStr ('\\' :: '\\' :: X) = (parseStr X).map (fun p => ('\\' :: p.1, p.2)) := by
  rw [parseStr.eq_def]; simp [unescCh]

theorem parseStr_other (c : Char) (rest : List Char) (h1 : c ≠ '"') (h2 : c ≠ '\\') :
    parseStr (c :: rest) = (parseStr rest).map (fun p => (c :: p.1, p.2)) := by
  rw [parseStr.eq_def]; simp [h1, h2]

theorem parseStr_escStr (s : List Char) (rest : List Char) :
    parseStr (escStr s ++ '"' :: rest) = some (s, rest) := by
  induction s with
  | nil => exact parseStr_quote rest
  | cons c s ih =>
    have hesc : escStr (c :: s) = escChar c ++ escStr s := rfl
    rw [hesc, List.append_assoc]
    by_cases h1 : c = '"'
    · subst h1
      rw [show escChar '"' = ['\\', '"'] from rfl, List.cons_append, List.cons_append,
        List.nil_append, parseStr_escQ, ih]
      rfl
    · by_cases h2 : c = '\\'
      · subst h2
        rw [show escChar '\\' = ['\\', '\\'] from rfl, List.cons_append, List.cons_append,
          List.nil_append, parseStr_escB, ih]
        rfl
      · rw [show escChar c = [c] from by simp [escChar, h1, h2], List.cons_append,
          List.nil_append, parseStr_other c _ h1 h2, ih]
        rfl

/-! ## Heads of rendered values, and whitespace prefixes -/

theorem okHead_of_digit {c : Char} (h : c.isDigit = true) :
    isJsonWS c = false ∧ c ≠ ']' ∧ c ≠ '}' :=
  ⟨isJsonWS_false_of_digit h,
   char_ne_of_digit h (by decide), char_ne_of_digit h (by decide)⟩

theorem dumpVal_head (v : JValue) :
    ∃ c t, dumpVal v = c :: t ∧ isJsonWS c = false ∧ c ≠ ']' ∧ c ≠ '}' := by
  cases v with
  | jnum n =>
    by_cases hn : n < 0
    · have hd : dumpVal (JValue.jnum n) = '-' :: natDigs n.natAbs := by
        show intDigs n = _
        rw [intDigs, if_pos hn]
      exact ⟨'-', natDigs n.natAbs, hd, rfl, by decide, by decide⟩
    · obtain ⟨_, _, c, t, hct, hcdig, _⟩ := natDigs_spec n.natAbs
      have hd : dumpVal (JValue.jnum n) = c :: t := by
        show intDigs n = _
        rw [intDigs, if_neg hn, hct]
      obtain ⟨hw, hb1, hb2⟩ := okHead_of_digit hcdig
      exact ⟨c, t, hd, hw, hb1, hb2⟩
  | jbool b =>
    rcases b with _ | _
    · exact ⟨'f', _, rfl, rfl, by decide, by decide⟩
    · exact ⟨'t', _, rfl, rfl, by decide, by decide⟩
  | jnull => exact ⟨'n', _, rfl, rfl, by decide, by decide⟩
  | jstr s => exact ⟨'"', _, rfl, rfl, by decide, by decide⟩
  | jarr es => exact ⟨'[', _, rfl, rfl, by decide, by decide⟩
  | jobj fs => exact ⟨'{', _, rfl, rfl, by decide, by decide⟩

theorem parseVal_wsPre (f : Nat) (pre cs : List Char) (h : ∀ c ∈ pre, isJsonWS c = true) :
    parseVal f (pre ++ cs) = parseVal f cs := by
  cases f with
  | zero => rfl
  | succ f => simp only [parseVal, dropWhile_append_all h]

theorem parseElems_wsPre (f : Nat) (pre cs : List Char) (h : ∀ c ∈ pre, isJsonWS c = true) :
    parseElems f (pre ++ cs) = parseElems f cs := by
  cases f with
  | zero => rfl
  | succ f => simp only [parseElems, parseVal_wsPre f pre cs h]

theorem parseFields_wsPre (f : Nat) (pre cs : List Char) (h : ∀ c ∈ pre, isJsonWS c = true) :
    parseFields f (pre ++ cs) = parseFields f cs := by
  cases f with
  | zero => rfl
  | succ f => simp only [parseFields, dropWhile_append_all h]

/-! ## Unfolding equations for the renderer -/

theorem dumpElems_true_cons (v : JValue) (vs : List JValue) :
    dumpElems true (v :: vs) = dumpVal v ++ dumpElems false vs := by
  rw [dumpElems]
  simp

theorem dumpElems_false_cons (v : JValue) (vs : List JValue) :
    dumpElems false (v :: vs) = ',' :: ' ' :: (dumpVal v ++ dumpElems false vs) := by
  rw [dumpElems]
  simp

theorem dumpFields_true_cons (k : List Char) (v : JValue) (fs : List (List Char × JValue)) :
    dumpFields true ((k, v) :: fs) =
      '"' :: (escStr k ++ '"' :: ':' :: ' ' :: (dumpVal v ++ dumpFields false fs)) := by
  rw [dumpFields]
  simp

theorem dumpFields_false_cons (k : List Char) (v : JValue) (fs : List (List Char × JValue)) :
    dumpFields false ((k, v) :: fs) =
      ',' :: ' ' :: dumpFields true ((k, v) :: fs) := by
  rw [dumpFields, dumpFields_true_cons]
  simp

/-! ## Step lemmas for the parser -/

theorem parseVal_numHead (f : Nat) (c : Char) (t : List Char) (hcdig : c.isDigit = true) :
    parseVal (f + 1) (c :: t) = (parseNum (c :: t)).map (fun p => (JValue.jnum p.1, p.2)) := by
  have hws := isJsonWS_false_of_digit hcdig
  have h1 : c ≠ 'n' := char_ne_of_digit hcdig (by decide)
  have h2 : c ≠ 't' := char_ne_of_digit hcdig (by decide)
  have h3 : c ≠ 'f' := char_ne_of_digit hcdig (by decide)
  have h4 : c ≠ '"' := char_ne_of_digit hcdig (by decide)
  have h5 : c ≠ '[' := char_ne_of_digit hcdig (by decide)
  have h6 : c ≠ '{' := char_ne_of_digit hcdig (by decide)
  have hstep : parseVal (f + 1) (c :: t) =
      (match (c :: t).dropWhile isJsonWS with
       | [] => none
       | c' :: rest =>
         if c' = 'n' then
           match rest with
           | 'u' :: 'l' :: 'l' :: r => some (JValue.jnull, r)
           | _ => none
         else if c' = 't' then
           match rest with
           | 'r' :: 'u' :: 'e' :: r => some (JValue.jbool true, r)
           | _ => none
         else if c' = 'f' then
           match rest with
           | 'a' :: 'l' :: 's' :: 'e' :: r => some (JValue.jbool false, r)
           | _ => none
         else if c' = '"' then (parseStr rest).map (fun p => (JValue.jstr p.1, p.2))
         else if c' = '[' then
           match rest.dropWhile isJsonWS with
           | ']' :: r2 => some (JValue.jarr [], r2)
           | cs2 => (parseElems f cs2).map (fun p => (JValue.jarr p.1, p.2))
         else if c' = '{' then
           match rest.dropWhile isJsonWS with
           | '}' :: r2 => some (JValue.jobj [], r2)
           | cs2 => (parseFields f cs2).map (fun p => (JValue.jobj p.1, p.2))
         else (parseNum (c' :: rest)).map (fun p => (JValue.jnum p.1, p.2))) := rfl
  rw [hstep, dropWhile_cons_false hws]
  simp [h1, h2, h3, h4, h5, h6]

theorem parseVal_intDigs (f : Nat) (n : Int) (rest : List Char) (hr : numSafe rest = true) :
    parseVal (f + 1) (intDigs n ++ rest) = some (JValue.jnum n, rest) := by
  by_cases hn : n < 0
  · have hid : intDigs n = '-' :: natDigs n.natAbs := by rw [intDigs, if_pos hn]
    rw [hid, List.cons_append,
      show parseVal (f + 1) ('-' :: (natDigs n.natAbs ++ rest))
        = (parseNum ('-' :: (natDigs n.natAbs ++ rest))).map (fun p => (JValue.jnum p.1, p.2))
        from rfl,
      ← List.cons_append, ← hid, parseNum_intDigs n rest hr]
    rfl
  · have hid : intDigs n = natDigs n.natAbs := by rw [intDigs, if_neg hn]
    obtain ⟨_, _, c, t, hct, hcdig, _⟩ := natDigs_spec n.natAbs
    have hinput : intDigs n ++ rest = c :: (t ++ rest) := by rw [hid, hct]; simp
    rw [hinput, parseVal_numHead f c (t ++ rest) hcdig, ← hinput, parseNum_intDigs n rest hr]
    rfl

theorem parseVal_arrE (f : Nat) (X : List Char) (c : Char) (t : List Char)
    (hX : X = c :: t) (hws : isJsonWS c = false) (hbr : c ≠ ']') :
    parseVal (f + 1) ('[' :: X) = (parseElems f X).map (fun p => (JValue.jarr p.1, p.2)) := by
  rw [show parseVal (f + 1) ('[' :: X) =
        (match X.dropWhile isJsonWS with
         | ']' :: r2 => some (JValue.jarr [], r2)
         | cs2 => (parseElems f cs2).map (fun p => (JValue.jarr p.1, p.2))) from rfl]
  subst hX
  rw [dropWhile_cons_false hws]
  split
  · next r2 heq =>
    exact absurd (List.cons.inj heq.symm).1 (fun hh => hbr hh.symm)
  · rfl

theorem parseVal_objE (f : Nat) (X : List Char) (c : Char) (t : List Char)
    (hX : X = c :: t) (hws : isJsonWS c = false) (hbc : c ≠ '}') :
    parseVal (f + 1) ('{' :: X) = (parseFields f X).map (fun p => (JValue.jobj p.1, p.2)) := by
  rw [show parseVal (f + 1) ('{' :: X) =
        (match X.dropWhile isJsonWS with
         | '}' :: r2 => some (JValue.jobj [], r2)
         | cs2 => (parseFields f cs2).map (fun p => (JValue.jobj p.1, p.2))) from rfl]
  subst hX
  rw [dropWhile_cons_false hws]
  split
  · next r2 heq =>
    exact absurd (List.cons.inj heq.symm).1 (fun hh => hbc hh.symm)
  · rfl

theorem parseElems_succ (f : Nat) (cs : List Char) :
    parseElems (f + 1) cs =
      (match parseVal f cs with
       | none => none
       | some (v, rest) =>
         match rest.dropWhile isJsonWS with
         | ',' :: r2 => (parseElems f r2).map (fun p => (v :: p.1, p.2))
         | ']' :: r2 => some ([v], r2)
         | _ => none) := rfl

theorem parseFields_succ (f : Nat) (cs : List Char) :
    parseFields (f + 1) cs =
      (match cs.dropWhile isJsonWS with
       | '"' :: rest =>
         match parseStr rest with
         | none => none
         | some (k, rest2) =>
           match rest2.dropWhile isJsonWS with
           | ':' :: rest3 =>
             match parseVal f rest3 with
             | none => none
             | some (v, rest4) =>
               match rest4.dropWhile isJsonWS with
               | ',' :: r2 => (parseFields f r2).map (fun p => ((k, v) :: p.1, p.2))
               | '}' :: r2 => some ([(k, v)], r2)
               | _ => none
           | _ => none
       | _ => none) := rfl

/-! ## The render/parse round trip -/

theorem rtAux : ∀ f : Nat,
    (∀ (v : JValue) (rest : List Char), (dumpVal v).length < f → numSafe rest = true →
       parseVal f (dumpVal v ++ rest) = some (v, rest)) ∧
    (∀ (e : JValue) (es : List JValue) (rest : List Char),
       (dumpElems true (e :: es)).length + 1 < f →
       parseElems f (dumpElems true (e :: es) ++ ']' :: rest) = some (e :: es, rest)) ∧
    (∀ (k : List Char) (v : JValue) (fs : List (List Char × JValue)) (rest : List Char),
       (dumpFields true ((k, v) :: fs)).length + 1 < f →
       parseFields f (dumpFields true ((k, v) :: fs) ++ '}' :: rest)
         = some ((k, v) :: fs, rest)) := by
  intro f
  induction f with
  | zero =>
    exact ⟨fun v rest hf _ => absurd hf (by omega),
      fun e es rest hf => absurd hf (by omega),
      fun k v fs rest hf => absurd hf (by omega)⟩
  | succ f ih =>
    obtain ⟨ih1, ih2, ih3⟩ := ih
    refine ⟨?_, ?_, ?_⟩
    · intro v rest hf hr
      cases v with
      | jnull => exact rfl
      | jbool b => cases b <;> exact rfl
      | jnum n => exact parseVal_intDigs f n rest hr
      | jstr s =>
        have harg : dumpVal (JValue.jstr s) ++ rest = '"' :: (escStr s ++ '"' :: rest) := by
          show ('"' :: (escStr s ++ ['"'])) ++ rest = _
          simp
        rw [harg,
          show parseVal (f + 1) ('"' :: (escStr s ++ '"' :: rest))
            = (parseStr (escStr s ++ '"' :: rest)).map (fun p => (JValue.jstr p.1, p.2)) from rfl,
          parseStr_escStr]
        rfl
      | jarr es =>
        cases es with
        | nil => exact rfl
        | cons e es =>
          obtain ⟨c, t0, hct, hws, hbr, _⟩ := dumpVal_head e
          have harg : dumpVal (JValue.jarr (e :: es)) ++ rest
              = '[' :: (dumpElems true (e :: es) ++ ']' :: rest) := by
            show ('[' :: (dumpElems true (e :: es) ++ [']'])) ++ rest = _
            simp
          have hX : dumpElems true (e :: es) ++ ']' :: rest
              = c :: (t0 ++ (dumpElems false es ++ ']' :: rest)) := by
            rw [dumpElems_true_cons, hct]
            simp
          have hlen2 : (dumpElems true (e :: es)).length + 1 < f := by
            have hdl : (dumpVal (JValue.jarr (e :: es))).length
                = (dumpElems true (e :: es)).length + 2 := by
              show ('[' :: (dumpElems true (e :: es) ++ [']'])).length = _
              simp
            omega
          rw [harg, parseVal_arrE f _ c _ hX hws hbr, ih2 e es rest hlen2]
          rfl
      | jobj fs =>
        cases fs with
        | nil => exact rfl
        | cons kv fs =>
          obtain ⟨k, v⟩ := kv
          have harg : dumpVal (JValue.jobj ((k, v) :: fs)) ++ rest
              = '{' :: (dumpFields true ((k, v) :: fs) ++ '}' :: rest) := by
            show ('{' :: (dumpFields true ((k, v) :: fs) ++ ['}'])) ++ rest = _
            simp
          have hX : dumpFields true ((k, v) :: fs) ++ '}' :: rest
              = '"' :: ((escStr k ++ '"' :: ':' :: ' ' :: (dumpVal v ++ dumpFields false fs))
                  ++ '}' :: rest) := by
            rw [dumpFields_true_cons]
            simp
          have hlen2 : (dumpFields true ((k, v) :: fs)).length + 1 < f := by
            have hdl : (dumpVal (JValue.jobj ((k, v) :: fs))).length
                = (dumpFields true ((k, v) :: fs)).length + 2 := by
              show ('{' :: (dumpFields true ((k, v) :: fs) ++ ['}'])).length = _
              simp
            omega
          rw [harg, parseVal_objE f _ '"' _ hX (by decide) (by decide),
            ih3 k v fs rest hlen2]
          rfl
    · intro e es rest hf
      have hlenE : (dumpVal e).length < f := by
        have hq : (dumpElems true (e :: es)).length
            = (dumpVal e).length + (dumpElems false es).length := by
          rw [dumpElems_true_cons]
          simp
        omega
      have hnum : numSafe (dumpElems false es ++ ']' :: rest) = true := by
        cases es with
        | nil => rfl
        | cons x xs => rw [dumpElems_false_cons]; rfl
      have hval : parseVal f (dumpElems true (e :: es) ++ ']' :: rest)
          = some (e, dumpElems false es ++ ']' :: rest) := by
        rw [dumpElems_true_cons, List.append_assoc]
        exact ih1 e _ hlenE hnum
      cases es with
      | nil =>
        rw [parseElems_succ, hval]
        rfl
      | cons x xs =>
        have hlen3 : (dumpElems true (x :: xs)).length + 1 < f := by
          have hq : (dumpElems true (e :: x :: xs)).length
              = (dumpVal e).length + (2 + (dumpElems true (x :: xs)).length) := by
            rw [dumpElems_true_cons, dumpElems_false_cons, dumpElems_true_cons]
            simp
            omega
          omega
        have htail : parseElems f (' ' :: ((dumpVal x ++ dumpElems false xs) ++ ']' :: rest))
            = some (x :: xs, rest) := by
          rw [show (' ' :: ((dumpVal x ++ dumpElems false xs) ++ ']' :: rest))
                = [' '] ++ ((dumpVal x ++ dumpElems false xs) ++ ']' :: rest) from rfl,
            parseElems_wsPre f [' '] _ (by decide), ← dumpElems_true_cons]
          exact ih2 x xs rest hlen3
        rw [parseElems_succ, hval, dumpElems_false_cons]
        show (parseElems f (' ' :: ((dumpVal x ++ dumpElems false xs) ++ ']' :: rest))).map
            (fun p => (e :: p.1, p.2)) = some (e :: x :: xs, rest)
        rw [htail]
        rfl
    · intro k v fs rest hf
      have hlenV : (dumpVal v).length < f := by
        have hq : (dumpFields true ((k, v) :: fs)).length
            = 1 + (escStr k).length + 3 + ((dumpVal v).length + (dumpFields false fs).length) := by
          rw [dumpFields_true_cons]
          simp
          omega
        omega
      have hnum : numSafe (dumpFields false fs ++ '}' :: rest) = true := by
        cases fs with
        | nil => rfl
        | cons kv2 fs2 =>
          obtain ⟨k2, v2⟩ := kv2
          rw [dumpFields_false_cons]
          rfl
      have hval : parseVal f (' ' :: (dumpVal v ++ dumpFields false fs ++ '}' :: rest))
          = some (v, dumpFields false fs ++ '}' :: rest) := by
        rw [show (' ' :: (dumpVal v ++ dumpFields false fs ++ '}' :: rest))
              = [' '] ++ (dumpVal v ++ dumpFields false fs ++ '}' :: rest) from rfl,
          parseVal_wsPre f [' '] _ (by decide), List.append_assoc]
        exact ih1 v _ hlenV hnum
      have hkey : parseStr (escStr k ++ '"' :: (':' :: ' ' :: (dumpVal v ++ dumpFields false fs
            ++ '}' :: rest))) = some (k, ':' :: ' ' :: (dumpVal v ++ dumpFields false fs
            ++ '}' :: rest)) := parseStr_escStr k _
      have hX : dumpFields true ((k, v) :: fs) ++ '}' :: rest
          = '"' :: (escStr k ++ '"' :: (':' :: ' ' :: (dumpVal v ++ dumpFields false fs
              ++ '}' :: rest))) := by
        rw [dumpFields_true_cons]
        simp
      rw [parseFields_succ, hX]
      rw [show (('"' :: (escStr k ++ '"' :: (':' :: ' ' :: (dumpVal v ++ dumpFields false fs
            ++ '}' :: rest)))).dropWhile isJsonWS)
          = '"' :: (escStr k ++ '"' :: (':' :: ' ' :: (dumpVal v ++ dumpFields false fs
            ++ '}' :: rest))) from dropWhile_cons_false (by decide)]
      show (match parseStr (escStr k ++ '"' :: (':' :: ' ' :: (dumpVal v ++ dumpFields false fs
            ++ '}' :: rest))) with
        | none => none
        | some (k', rest2) =>
          match rest2.dropWhile isJsonWS with
          | ':' :: rest3 =>
            match parseVal f rest3 with
            | none => none
            | some (v', rest4) =>
              match rest4.dropWhile isJsonWS with
              | ',' :: r2 => (parseFields f r2).map (fun p => ((k', v') :: p.1, p.2))
              | '}' :: r2 => some ([(k', v')], r2)
              | _ => none
          | _ => none) = some ((k, v) :: fs, rest)
      rw [hkey]
      show (match parseVal f (' ' :: (dumpVal v ++ dumpFields false fs ++ '}' :: rest)) with
        | none => none
        | some (v', rest4) =>
          match rest4.dropWhile isJsonWS with
          | ',' :: r2 => (parseFields f r2).map (fun p => ((k, v') :: p.1, p.2))
          | '}' :: r2 => some ([(k, v')], r2)
          | _ => none) = some ((k, v) :: fs, rest)
      rw [hval]
      cases fs with
      | nil => rfl
      | cons kv2 fs2 =>
        obtain ⟨k2, v2⟩ := kv2
        have hlen3 : (dumpFields true ((k2, v2) :: fs2)).length + 1 < f := by
          have hq : (dumpFields true ((k, v) :: (k2, v2) :: fs2)).length
              = 1 + (escStr k).length + 3 + ((dumpVal v).length
                  + (2 + (dumpFields true ((k2, v2) :: fs2)).length)) := by
            rw [dumpFields_true_cons, dumpFields_false_cons]
            simp
            omega
          omega
        have htail : parseFields f (' ' :: (dumpFields true ((k2, v2) :: fs2) ++ '}' :: rest))
            = some ((k2, v2) :: fs2, rest) := by
          rw [show (' ' :: (dumpFields true ((k2, v2) :: fs2) ++ '}' :: rest))
                = [' '] ++ (dumpFields true ((k2, v2) :: fs2) ++ '}' :: rest) from rfl,
            parseFields_wsPre f [' '] _ (by decide)]
          exact ih3 k2 v2 fs2 rest hlen3
        rw [dumpFields_false_cons]
        show (parseFields f (' ' :: (dumpFields true ((k2, v2) :: fs2) ++ '}' :: rest))).map
            (fun p => ((k, v) :: p.1, p.2)) = some ((k, v) :: (k2, v2) :: fs2, rest)
        rw [htail]
        rfl

/-- `json.dumps` followed by `json.loads` returns the original value. -/
theorem jsonLoads_dumpVal (v : JValue) : jsonLoads (dumpVal v) = some v := by
  have h := (rtAux ((dumpVal v).length + 1)).1 v [] (by omega) rfl
  rw [List.append_nil] at h
  rw [jsonLoads, h]
  rfl

/-! ## Cache table lemmas -/

theorem dbLookup_dbInsert (db : CacheDB) (k v : String × String) :
    dbLookup (dbInsert db k v) k = some v := by
  induction db with
  | nil => simp [dbInsert, dbLookup]
  | cons kv rest ih =>
    obtain ⟨k', v'⟩ := kv
    by_cases h : k' = k
    · subst h
      simp [dbInsert, dbLookup]
    · simp [dbInsert, dbLookup, h, ih]

/-! # The claims -/

/-- C10: after `upsert_glossary_cache` stores an item list under
`(document_id, page_key)`, `get_glossary_cache` for the same key returns an
entry whose items equal the stored items and whose `updated_at` is the
ISO-format text of the stored timestamp, whatever entry (if any) existed
before — the serialize/parse round trip through the `items_json` column is
lossless and the upsert fully replaces any prior row. -/
theorem C10_put_get_roundtrip (db : CacheDB) (lid pk : String) (items : List JValue)
    (ua : PyDatetime) :
    get_glossary_cache (upsert_glossary_cache db lid pk (JValue.jarr items) ua) lid pk
      = some ⟨JValue.jarr items, ua.isoformat⟩ := by
  rw [upsert_glossary_cache, get_glossary_cache, dbLookup_dbInsert]
  show some (CacheEntry.mk ((jsonLoads (jsonDumps (JValue.jarr items)).data).getD
    (JValue.jarr [])) ua.isoformat) = _
  rw [show (jsonDumps (JValue.jarr items)).data = dumpVal (JValue.jarr items) from rfl,
    jsonLoads_dumpVal]
  rfl

/-- C7: a stored cache row whose `items_json` payload does not parse as JSON
is returned as an entry with an empty item list and the stored timestamp (no
error is raised), and a lookup for an absent key returns nothing. -/
theorem C7_corrupt_payload_degrades (db : CacheDB) (lid key js ua : String) :
    (dbLookup db (lid, key) = some (js, ua) → jsonLoads js.data = none →
       get_glossary_cache db lid key = some ⟨JValue.jarr [], ua⟩) ∧
    (dbLookup db (lid, key) = none → get_glossary_cache db lid key = none) := by
  constructor
  · intro h hj
    rw [get_glossary_cache, h]
    show some (CacheEntry.mk ((jsonLoads js.data).getD (JValue.jarr [])) ua) = _
    rw [hj]
    rfl
  · intro h
    rw [get_glossary_cache, h]

/-- Witness for C7: a concrete database with a malformed `items_json` row
degrades to the empty item list with the stored timestamp, and the empty
database yields no entry. -/
theorem C7_corrupt_payload_degrades_witness :
    get_glossary_cache [(("L", "all"), ("\x7bbroken", "2024-05-01T00:00:00"))] "L" "all"
        = some ⟨JValue.jarr [], "2024-05-01T00:00:00"⟩ ∧
      get_glossary_cache [] "L" "all" = none :=
  ⟨(C7_corrupt_payload_degrades [(("L", "all"), ("\x7bbroken", "2024-05-01T00:00:00"))]
      "L" "all" "\x7bbroken" "2024-05-01T00:00:00").1 rfl rfl,
   (C7_corrupt_payload_degrades [] "L" "all" "x" "y").2 rfl⟩

/-- C8: the generator embeds at most the first 12,000 characters of the input
text in the request payload: the embedded text is a prefix of the input of
length at most 12,000, input of at most 12,000 characters is embedded
unchanged, and the payload depends only on that prefix (longer text is cut
silently, with no error and no adjustment to a semantic boundary). -/
theorem C8_prompt_truncation (c : String) :
    (truncatedOf c).data <+: c.data ∧
    (truncatedOf c).data.length ≤ 12000 ∧
    (c.data.length ≤ 12000 → truncatedOf c = c) ∧
    promptFor c = promptFor (truncatedOf c) := by
  refine ⟨?_, ?_, ?_, ?_⟩
  · show c.data.take 12000 <+: c.data
    exact List.take_prefix 12000 c.data
  · show (c.data.take 12000).length ≤ 12000
    simp
  · intro h
    show String.mk (c.data.take 12000) = c
    rw [List.take_of_length_le h]
  · have hidem : truncatedOf (truncatedOf c) = truncatedOf c := by
      show String.mk ((c.data.take 12000).take 12000) = String.mk (c.data.take 12000)
      rw [List.take_take]
      norm_num
    rw [promptFor, promptFor, hidem]

/-- Witness for C8: a short input is embedded unchanged and yields the same
payload as its truncation. -/
theorem C8_prompt_truncation_witness :
    truncatedOf "abc" = "abc" ∧ promptFor "abc" = promptFor (truncatedOf "abc") :=
  ⟨(C8_prompt_truncation "abc").2.2.1 (by decide),
   (C8_prompt_truncation "abc").2.2.2⟩

/-- C4: an absent page parameter, and `"all"` in any letter case, both give
whole-document scope with `page_key = "all"`; a numeric parameter with value
`n` gives zero-based extraction index `n - 1` and `page_key` the decimal text
of `n`; a non-numeric parameter is rejected with the HTTP 400 `ValueError`
response before the extractor or the generation service is touched and
without any cache change. -/
theorem C4_page_param (lid : String) (r : Option String) (gok : Bool) (pages : List String)
    (reply : String) (now : PyDatetime) (db : CacheDB) :
    pageSel none = some (none, "all") ∧
    (∀ s, pyLower s = "all" → pageSel (some s) = some (none, "all")) ∧
    (∀ s n, pyInt s = some n → s ≠ "" → pyLower s ≠ "all" →
       pageSel (some s) = some (some (n - 1), intStr n)) ∧
    (∀ s, pyInt s = none → s ≠ "" → pyLower s ≠ "all" →
       pageSel (some s) = none ∧
       glossaryRoute lid (some s) r gok pages reply now db
         = ⟨RouteResult.errResp 400 ("ページ指定が不正です。"), db, false, false, false⟩) := by
  refine ⟨rfl, ?_, ?_, ?_⟩
  · intro s h
    simp [pageSel, h]
  · intro s n hn hne hall
    have harith : n - 1 + 1 = n := by omega
    simp [pageSel, hne, hall, hn, harith]
  · intro s hn hne hall
    have hsel : pageSel (some s) = none := by simp [pageSel, hne, hall, hn]
    exact ⟨hsel, by simp [glossaryRoute, hsel]⟩

/-- Witness for C4: selector `"3"` gives index 2 and key `"3"`; `"ALL"` gives
the whole-document key; `"x"` is rejected with HTTP 400 before extraction or
generation. -/
theorem C4_page_param_witness :
    pageSel (some "3") = some (some 2, "3") ∧
    pageSel (some "ALL") = some (none, "all") ∧
    glossaryRoute "L" (some "x") none true [] "" ⟨2024, 1, 1, 0, 0, 0, 0⟩ []
      = ⟨RouteResult.errResp 400 ("ページ指定が不正です。"), [], false, false, false⟩ :=
  by
  refine ⟨?_, ?_, ?_⟩
  · exact (C4_page_param "L" none true [] "" ⟨2024, 1, 1, 0, 0, 0, 0⟩ []).2.2.1 "3" 3 rfl
      (by decide) (by decide)
  · exact (C4_page_param "L" none true [] "" ⟨2024, 1, 1, 0, 0, 0, 0⟩ []).2.1 "ALL" rfl
  · exact ((C4_page_param "L" none true [] "" ⟨2024, 1, 1, 0, 0, 0, 0⟩ []).2.2.2 "x" rfl
      (by decide) (by decide)).2

/-- C5: with a falsy refresh parameter and an existing cache entry for the
requested scope, the route answers with the stored items, `cached = true` and
the stored timestamp, does not invoke the generation service or the
extractor, and leaves the cache unchanged; repeating the request is
identical. -/
theorem C5_cache_hit_idempotent (lid : String) (pp r : Option String) (gok : Bool)
    (pages : List String) (reply : String) (now : PyDatetime) (db : CacheDB)
    (idx : Option Int) (key : String) (entry : CacheEntry)
    (hsel : pageSel pp = some (idx, key))
    (hr : refreshFalsy r = true)
    (hhit : get_glossary_cache db lid key = some entry) :
    glossaryRoute lid pp r gok pages reply now db
      = ⟨RouteResult.okCached entry.items entry.updated_at, db, false, false, true⟩ ∧
    glossaryRoute lid pp r gok pages reply now
        (glossaryRoute lid pp r gok pages reply now db).db
      = glossaryRoute lid pp r gok pages reply now db := by
  have h1 : glossaryRoute lid pp r gok pages reply now db
      = ⟨RouteResult.okCached entry.items entry.updated_at, db, false, false, true⟩ := by
    simp [glossaryRoute, hsel, hr, hhit]
  refine ⟨h1, ?_⟩
  rw [h1]
  exact h1

/-- Witness for C5: a concrete cache hit is returned unchanged with
`cached = true`, and the request is idempotent. -/
theorem C5_cache_hit_idempotent_witness :
    glossaryRoute "L" none none true ["t"] "r" ⟨2024, 1, 1, 0, 0, 0, 0⟩
        [(("L", "all"), ("[]", "TS"))]
      = ⟨RouteResult.okCached (JValue.jarr []) "TS", [(("L", "all"), ("[]", "TS"))],
          false, false, true⟩ :=
  (C5_cache_hit_idempotent "L" none none true ["t"] "r" ⟨2024, 1, 1, 0, 0, 0, 0⟩
    [(("L", "all"), ("[]", "TS"))] none "all" ⟨JValue.jarr [], "TS"⟩ rfl rfl rfl).1

/-- C6: when extraction yields an empty or whitespace-only text for the
requested scope, the route fails with the HTTP 500 extraction-failure
response, the generation service is not invoked, and the cache is unchanged. -/
theorem C6_empty_text_guard (lid : String) (pp r : Option String) (gok : Bool)
    (pages : List String) (reply : String) (now : PyDatetime) (db : CacheDB)
    (idx : Option Int) (key : String) (content : String)
    (hsel : pageSel pp = some (idx, key))
    (hmiss : refreshFalsy r = true → get_glossary_cache db lid key = none)
    (hex : extract_pdf_text pages idx = ExtractResult.ok content)
    (hws : pyStrip content = "") :
    glossaryRoute lid pp r gok pages reply now db
      = ⟨RouteResult.errResp 500 ("PDFからテキストを抽出できませんでした。"), db, false, true,
          refreshFalsy r⟩ := by
  by_cases hr : refreshFalsy r = true
  · simp [glossaryRoute, hsel, hr, hmiss hr, hex, hws]
  · have hr' : refreshFalsy r = false := by
      revert hr
      cases refreshFalsy r <;> simp
    simp [glossaryRoute, hsel, hr', hex, hws]

/-- Witness for C6: a document whose only page text is a single blank yields
the extraction-failure response with no generation call and no cache write. -/
theorem C6_empty_text_guard_witness :
    glossaryRoute "L" none none true [" "] "x" ⟨2024, 1, 1, 0, 0, 0, 0⟩ []
      = ⟨RouteResult.errResp 500 ("PDFからテキストを抽出できませんでした。"), [], false, true,
          true⟩ :=
  C6_empty_text_guard "L" none none true [" "] "x" ⟨2024, 1, 1, 0, 0, 0, 0⟩ []
    none "all" " " rfl (fun _ => rfl) rfl rfl

/-- C9: any non-empty `refresh` value — the literal strings `"false"` and
`"0"` included — skips the cache lookup and forces regeneration (the
generation service runs whenever extraction yields non-blank text and the
service is configured, whatever the cache holds); the cache is consulted
exactly when the `refresh` parameter is absent or the empty string. -/
theorem C9_nonempty_refresh_bypasses (lid : String) (pp : Option String) (s : String)
    (gok : Bool) (pages : List String) (reply : String) (now : PyDatetime) (db : CacheDB)
    (idx : Option Int) (key : String)
    (hs : s ≠ "") (hsel : pageSel pp = some (idx, key)) :
    (glossaryRoute lid pp (some s) gok pages reply now db).cacheChecked = false ∧
    (∀ content, extract_pdf_text pages idx = ExtractResult.ok content →
       pyStrip content ≠ "" → gok = true →
       (glossaryRoute lid pp (some s) gok pages reply now db).genCalled = true) ∧
    (∀ r : Option String,
       (glossaryRoute lid pp r gok pages reply now db).cacheChecked = refreshFalsy r) := by
  have hrf : refreshFalsy (some s) = false := by simp [refreshFalsy, hs]
  have hcc : ∀ r : Option String,
      (glossaryRoute lid pp r gok pages reply now db).cacheChecked = refreshFalsy r := by
    intro r
    simp only [glossaryRoute, hsel]
    cases hq : (if refreshFalsy r then get_glossary_cache db lid key else none) with
    | some entry => rfl
    | none =>
      cases hext : extract_pdf_text pages idx with
      | ok content =>
        by_cases h1 : pyStrip content = ""
        · simp [h1]
        · by_cases h2 : gok = false <;> simp [h1, h2]
      | valueErr m => rfl
      | runtimeErr m => rfl
  refine ⟨by rw [hcc (some s), hrf], ?_, hcc⟩
  intro content hex hst hgok
  subst hgok
  simp [glossaryRoute, hsel, hrf, hex, hst]

/-- Witness for C9: `refresh=false` (the literal string) with an existing
cache entry still skips the lookup and invokes generation. -/
theorem C9_nonempty_refresh_bypasses_witness :
    (glossaryRoute "L" none (some "false") true ["T"] "x" ⟨2024, 1, 1, 0, 0, 0, 0⟩
        [(("L", "all"), ("[]", "TS"))]).cacheChecked = false ∧
    (glossaryRoute "L" none (some "false") true ["T"] "x" ⟨2024, 1, 1, 0, 0, 0, 0⟩
        [(("L", "all"), ("[]", "TS"))]).genCalled = true :=
  ⟨(C9_nonempty_refresh_bypasses "L" none "false" true ["T"] "x" ⟨2024, 1, 1, 0, 0, 0, 0⟩
      [(("L", "all"), ("[]", "TS"))] none "all" (by decide) rfl).1,
   (C9_nonempty_refresh_bypasses "L" none "false" true ["T"] "x" ⟨2024, 1, 1, 0, 0, 0, 0⟩
      [(("L", "all"), ("[]", "TS"))] none "all" (by decide) rfl).2.1 "T" rfl (by decide) rfl⟩

/-- Counterexample to C1 as stated.  First input: its trimmed text parses
directly as an array (the claimed tier 1), yet the parser does not return that
array — a fenced block replaces the candidate before any direct parse of the
raw text is attempted.  Second input: the claimed tier 3 on the full original
text would recover `[1]`, yet the parser does not return it — the bracket scan
runs on the fenced-block candidate, not on the full original text. -/
theorem C1_counterexample :
    (jsonLoads (pyStripL ("[\"```a```\"]").data)
        = some (JValue.jarr [JValue.jstr ("```a```").data]) ∧
      parseReply ("[\"```a```\"]").data ≠ [JValue.jstr ("```a```").data]) ∧
    (bracketMatch ("[1] ```x```").data = some (("[1]").data) ∧
      jsonLoads (("[1]").data) = some (JValue.jarr [JValue.jnum 1]) ∧
      parseReply ("[1] ```x```").data ≠ [JValue.jnum 1]) :=
  ⟨⟨rfl, fun h => JValue.noConfusion (List.cons.inj h).1⟩,
   ⟨rfl, rfl, fun h => JValue.noConfusion (List.cons.inj h).1⟩⟩

/-- C1 (amended): the parser forms one candidate — the stripped contents of
the first fenced block when a fence matches (falling back to the stripped raw
text when that is empty), the stripped raw text otherwise — then (a) a direct
parse of the candidate that yields an array is returned; (b) when the direct
parse raises a decode error, the bracket scan runs on the candidate (not the
full original text) and its array result is returned; (c) when the candidate
parses to a non-array value, the degraded fallback is returned with no
bracket scan. -/
theorem C1_amended_tiers (text : List Char) :
    (∀ g xs, fenceGroup text = some g → pyStripL g ≠ [] →
       jsonLoads (pyStripL g) = some (JValue.jarr xs) → parseReply text = xs) ∧
    (∀ sub xs, jsonLoads (candidateOf text) = none →
       bracketMatch (candidateOf text) = some sub →
       jsonLoads sub = some (JValue.jarr xs) → parseReply text = xs) ∧
    (∀ v, jsonLoads (candidateOf text) = some v → (∀ xs, v ≠ JValue.jarr xs) →
       parseReply text = degradedItems text) := by
  refine ⟨?_, ?_, ?_⟩
  · intro g xs hg hne hl
    have hcand : candidateOf text = pyStripL g := by
      simp [candidateOf, hg, hne]
    simp [parseReply, hcand, hl]
  · intro sub xs hnone hb hl
    simp [parseReply, hnone, hb, hl]
  · intro v hv hnv
    cases v with
    | jarr es => exact absurd rfl (hnv es)
    | jnull => simp [parseReply, hv]
    | jbool b => simp [parseReply, hv]
    | jnum n => simp [parseReply, hv]
    | jstr s => simp [parseReply, hv]
    | jobj fs => simp [parseReply, hv]

/-- Witness for the amended C1: a fenced array inside prose is recovered from
the fenced-block candidate. -/
theorem C1_amended_tiers_witness :
    parseReply ("x ```[2]``` y").data = [JValue.jnum 2] :=
  (C1_amended_tiers ("x ```[2]``` y").data).1 (("[2]").data) [JValue.jnum 2] rfl
    (by decide) rfl

/-- Counterexample to C2 as stated: on an unparseable reply with leading
whitespace the synthetic item's context is the first 500 characters of the
*trimmed* reply (`text.strip()[:500]`), not of the raw reply. -/
theorem C2_counterexample :
    parseReply ("  x").data
      = [JValue.jobj [(("term").data, JValue.jstr ("解析失敗").data),
          (("definition").data,
            JValue.jstr ("Gemini API の応答をJSONとして解釈できませんでした。").data),
          (("context").data, JValue.jstr (("x").data))]] ∧
    ("x").data ≠ (("  x").data).take 500 :=
  ⟨rfl, by decide⟩

/-- C2 (amended): the parser is total, and whenever neither the candidate's
direct parse nor the candidate's bracket scan recovers an array it returns
exactly one synthetic item whose term is 解析失敗, whose definition is the
fixed could-not-interpret message, and whose context is the first 500
characters of the *trimmed* raw reply. -/
theorem C2_amended_fallback (text : List Char) (h : noArrayRecovered text = true) :
    parseReply text
      = [JValue.jobj [(("term").data, JValue.jstr ("解析失敗").data),
          (("definition").data,
            JValue.jstr ("Gemini API の応答をJSONとして解釈できませんでした。").data),
          (("context").data, JValue.jstr ((pyStripL text).take 500))]] ∧
    (parseReply text).length = 1 := by
  have hsplit : isArrLoad (candidateOf text) = false ∧
      (match bracketMatch (candidateOf text) with
       | some sub => isArrLoad sub
       | none => false) = false := by
    simp only [noArrayRecovered, Bool.and_eq_true, Bool.not_eq_true'] at h
    exact h
  have hmain : parseReply text = degradedItems text := by
    cases hl : jsonLoads (candidateOf text) with
    | some v =>
      cases v with
      | jarr es =>
        have harr : isArrLoad (candidateOf text) = true := by simp [isArrLoad, hl]
        rw [hsplit.1] at harr
        exact Bool.noConfusion harr
      | jnull => simp [parseReply, hl]
      | jbool b => simp [parseReply, hl]
      | jnum n => simp [parseReply, hl]
      | jstr s => simp [parseReply, hl]
      | jobj fs => simp [parseReply, hl]
    | none =>
      cases hb : bracketMatch (candidateOf text) with
      | none => simp [parseReply, hl, hb]
      | some sub =>
        have hsub : isArrLoad sub = false := by
          have h2 := hsplit.2
          rw [hb] at h2
          exact h2
        cases hl2 : jsonLoads sub with
        | some v =>
          cases v with
          | jarr es =>
            have harr : isArrLoad sub = true := by simp [isArrLoad, hl2]
            rw [hsub] at harr
            exact Bool.noConfusion harr
          | jnull => simp [parseReply, hl, hb, hl2]
          | jbool b => simp [parseReply, hl, hb, hl2]
          | jnum n => simp [parseReply, hl, hb, hl2]
          | jstr s => simp [parseReply, hl, hb, hl2]
          | jobj fs => simp [parseReply, hl, hb, hl2]
        | none => simp [parseReply, hl, hb, hl2]
  exact ⟨hmain, by rw [hmain]; rfl⟩

/-- Witness for the amended C2: wholly unstructured text yields the single
synthetic item carrying the trimmed 500-character context. -/
theorem C2_amended_fallback_witness :
    parseReply ("hello").data
      = [JValue.jobj [(("term").data, JValue.jstr ("解析失敗").data),
          (("definition").data,
            JValue.jstr ("Gemini API の応答をJSONとして解釈できませんでした。").data),
          (("context").data, JValue.jstr (("hello").data))]] :=
  (C2_amended_fallback ("hello").data rfl).1

/-- Counterexample to C3 as stated: `[{}]` parses directly as an array and is
returned, but the element's missing `term` field stays absent in the returned
item — it is not replaced by an empty string. -/
theorem C3_counterexample :
    jsonLoads (pyStripL ("[\x7b\x7d]").data) = some (JValue.jarr [JValue.jobj []]) ∧
    parseReply ("[\x7b\x7d]").data = [JValue.jobj []] ∧
    fieldOf (JValue.jobj []) (("term").data) = none :=
  ⟨rfl, rfl, rfl⟩

/-- C3 (amended): when no fenced block matches and the trimmed raw text
parses as a top-level array, the parser returns exactly that array — elements
unchanged, with missing fields remaining absent and causing no failure. -/
theorem C3_amended_direct_parse (text : List Char) (xs : List JValue)
    (hf : fenceGroup text = none)
    (hl : jsonLoads (pyStripL text) = some (JValue.jarr xs)) :
    parseReply text = xs := by
  have hcand : candidateOf text = pyStripL text := by
    simp [candidateOf, hf]
  simp [parseReply, hcand, hl]

/-- Witness for the amended C3: the direct parse of `[{}]` is returned as-is. -/
theorem C3_amended_direct_parse_witness :
    parseReply ("[\x7b\x7d]").data = [JValue.jobj []] :=
  C3_amended_direct_parse ("[\x7b\x7d]").data [JValue.jobj []] rfl rfl

end NoteMate
